import Mathlib

set_option maxRecDepth 10000
set_option allowUnsafeReducibility true
attribute [local semireducible] Rat.add Rat.mul Rat.inv Rat.sub Rat.div

/-!
Verification of the genetic-jazz melody generator core.

The Python source is shallowly embedded: pure functions become Lean
functions over `Int`/`Nat`/`ℚ`, random draws become explicit choice
parameters with validity predicates describing exactly the values the
random primitives can produce, and the generational loop becomes a step
relation.  Floating-point arithmetic of the source is idealised as exact
rational arithmetic.
-/

-- ===================================================================
-- src/core/constants.py
-- ===================================================================

def REST : Int := -1

def MIN_PITCH : Int := 60

def MAX_PITCH : Int := 84

def NOTES_PER_BAR : Nat := 8

def NUM_BARS : Nat := 8

def TOTAL_NOTES : Nat := NOTES_PER_BAR * NUM_BARS

-- ===================================================================
-- src/core/chorddata.py
-- ===================================================================

/-- `JazzChord` dataclass: root pitch class plus interval sets
(Python tuples become lists). -/
structure JazzChord where
  name : String
  root : Int
  chord_tones : List Int
  tensions : List Int
  avoid_notes : List Int
deriving DecidableEq

/-- Placeholder chord used to totalise Python list indexing
`progression.chords[bar_idx]`; never reached on the well-formed
8-chord progressions the claims are about. -/
def defaultChord : JazzChord := ⟨"", 0, [], [], []⟩

/-- `MelodyGenome` dataclass (the `pitches` field). -/
structure MelodyGenome where
  pitches : List Int
deriving DecidableEq

/-- `MelodyGenome.__post_init__`: an empty pitch list is replaced by
`TOTAL_NOTES` rests; any non-empty list is stored as-is. -/
def mkMelodyGenome (pitches : List Int) : MelodyGenome :=
  if pitches.isEmpty then ⟨List.replicate TOTAL_NOTES REST⟩ else ⟨pitches⟩

/-- `MelodyGenome.get_bar`: Python slice `pitches[start:start+NOTES_PER_BAR]`. -/
def MelodyGenome.get_bar (g : MelodyGenome) (barIndex : Nat) : List Int :=
  (g.pitches.drop (barIndex * NOTES_PER_BAR)).take NOTES_PER_BAR

/-- `MelodyGenome.copy`: constructs `MelodyGenome(pitches=self.pitches.copy())`,
which runs `__post_init__` again. -/
def MelodyGenome.copy (g : MelodyGenome) : MelodyGenome :=
  mkMelodyGenome g.pitches

-- ===================================================================
-- src/genetic/fitness.py
-- ===================================================================

/-- `_get_pitch_class`: `midi_pitch % 12` (Lean `Int.emod` agrees with
Python `%` for a positive modulus). -/
def get_pitch_class (midi_pitch : Int) : Int := midi_pitch % 12

/-- `_is_chord_tone`. -/
def is_chord_tone (pitch : Int) (chord : JazzChord) : Bool :=
  if pitch = REST then false
  else chord.chord_tones.contains ((get_pitch_class pitch - chord.root) % 12)

/-- `_is_tension`. -/
def is_tension (pitch : Int) (chord : JazzChord) : Bool :=
  if pitch = REST then false
  else chord.tensions.contains ((get_pitch_class pitch - chord.root) % 12)

/-- `_is_avoid_note`. -/
def is_avoid_note (pitch : Int) (chord : JazzChord) : Bool :=
  if pitch = REST then false
  else chord.avoid_notes.contains ((get_pitch_class pitch - chord.root) % 12)

/-- `_chord_tone_emphasis`: accumulates (score, checks) over strong-beat
slots (positions 0 and 4 of each bar). -/
def chord_tone_emphasis (prog : List JazzChord) (g : MelodyGenome) : ℚ :=
  let r := (List.range NUM_BARS).foldl
    (fun (acc : ℚ × Nat) barIdx =>
      let chord := prog.getD barIdx defaultChord
      let bar := g.get_bar barIdx
      ([0, 4] : List Nat).foldl
        (fun acc pos =>
          let pitch := bar.getD pos REST
          if pitch ≠ REST then
            if is_chord_tone pitch chord then (acc.1 + 1, acc.2 + 1)
            else if is_tension pitch chord then (acc.1 + 1/2, acc.2 + 1)
            else (acc.1, acc.2 + 1)
          else acc)
        acc)
    ((0 : ℚ), (0 : Nat))
  if r.2 > 0 then r.1 / (r.2 : ℚ) else 1/2

/-- `_tension_usage`: accumulates (tension_count, total_notes), then the
piecewise curve with optimum ratio 0.30. -/
def tension_usage (prog : List JazzChord) (g : MelodyGenome) : ℚ :=
  let r := (List.range NUM_BARS).foldl
    (fun (acc : Nat × Nat) barIdx =>
      let chord := prog.getD barIdx defaultChord
      (g.get_bar barIdx).foldl
        (fun acc pitch =>
          if pitch ≠ REST then
            if is_tension pitch chord then (acc.1 + 1, acc.2 + 1)
            else (acc.1, acc.2 + 1)
          else acc)
        acc)
    ((0 : Nat), (0 : Nat))
  if r.2 = 0 then 0
  else
    let tq : ℚ := (r.1 : ℚ) / (r.2 : ℚ)
    if tq ≤ 3/10 then tq / (3/10)
    else max 0 (1 - (tq - 3/10) / (2/5))

/-- `_avoid_wrong_notes`: accumulates (wrong_note_penalty, total_notes). -/
def avoid_wrong_notes (prog : List JazzChord) (g : MelodyGenome) : ℚ :=
  let r := (List.range NUM_BARS).foldl
    (fun (acc : ℚ × Nat) barIdx =>
      let chord := prog.getD barIdx defaultChord
      (g.get_bar barIdx).foldl
        (fun acc pitch =>
          if pitch ≠ REST then
            if is_avoid_note pitch chord then (acc.1 + 1, acc.2 + 1)
            else if !(is_chord_tone pitch chord) && !(is_tension pitch chord) then
              (acc.1 + 3/10, acc.2 + 1)
            else (acc.1, acc.2 + 1)
          else acc)
        acc)
    ((0 : ℚ), (0 : Nat))
  if r.2 = 0 then 1/2
  else 1 - r.1 / (r.2 : ℚ)

/-- Number of sounded (non-rest) slots of one bar. -/
def bar_note_count (g : MelodyGenome) (barIdx : Nat) : Nat :=
  (g.get_bar barIdx).foldl (fun n p => if p ≠ REST then n + 1 else n) 0

/-- Note density of 2-bar phrase `phraseIdx` (bars `2i`, `2i+1`). -/
def phrase_density (g : MelodyGenome) (phraseIdx : Nat) : ℚ :=
  ((bar_note_count g (phraseIdx * 2) + bar_note_count g (phraseIdx * 2 + 1) : Nat) : ℚ)
    / (2 * (NOTES_PER_BAR : ℚ))

/-- `_call_and_response`: additive 4-phrase density template. -/
def call_and_response (g : MelodyGenome) : ℚ :=
  let d0 := phrase_density g 0
  let d1 := phrase_density g 1
  let d2 := phrase_density g 2
  let d3 := phrase_density g 3
  let s1 : ℚ := if 2/5 ≤ d0 ∧ d0 ≤ 7/10 then 1/4
    else if 3/10 ≤ d0 ∧ d0 ≤ 4/5 then 3/20 else 0
  let s2 : ℚ := if 1/5 ≤ d1 ∧ d1 ≤ 1/2 then 1/4
    else if d1 < d0 then 3/20 else 0
  let s3 : ℚ := if 2/5 ≤ d2 ∧ d2 ≤ 7/10 then 1/4
    else if 3/10 ≤ d2 ∧ d2 ≤ 4/5 then 3/20 else 0
  let bar7d : ℚ := (bar_note_count g 6 : ℚ) / (NOTES_PER_BAR : ℚ)
  let bar8d : ℚ := (bar_note_count g 7 : ℚ) / (NOTES_PER_BAR : ℚ)
  let s4 : ℚ := if bar8d < bar7d then 1/4
    else if 1/5 ≤ d3 ∧ d3 ≤ 3/5 then 3/20 else 0
  s1 + s2 + s3 + s4

/-- `_melodic_motion`: folds over the pitches keeping
(score, intervals, prev_pitch). -/
def melodic_motion (g : MelodyGenome) : ℚ :=
  let r := g.pitches.foldl
    (fun (acc : ℚ × Nat × Option Int) pitch =>
      if pitch ≠ REST then
        match acc.2.2 with
        | some prev =>
          let interval := (pitch - prev).natAbs
          let s : ℚ :=
            if interval ≤ 2 then 1
            else if interval ≤ 4 then 9/10
            else if interval ≤ 5 then 7/10
            else if interval ≤ 7 then 1/2
            else if interval ≤ 9 then 3/10
            else 1/10
          (acc.1 + s, acc.2.1 + 1, some pitch)
        | none => (acc.1, acc.2.1, some pitch)
      else acc)
    ((0 : ℚ), (0 : Nat), (none : Option Int))
  if r.2.1 > 0 then r.1 / (r.2.1 : ℚ) else 1/2

/-- The sounded pitches `[p for p in genome.pitches if p != REST]`. -/
def soundedPitches (g : MelodyGenome) : List Int :=
  g.pitches.filter (fun p => p != REST)

/-- Absolute intervals between consecutive entries of a list. -/
def intervalsOf (l : List Int) : List Nat :=
  (l.zip l.tail).map (fun p => (p.2 - p.1).natAbs)

/-- The window loop of `_arpeggio_scale_mix`: counts
(arp_up_scale_down, patterns) over all 4-note windows. -/
def arpWindows : List Int → Nat × Nat
  | p1 :: p2 :: p3 :: p4 :: rest =>
    let w := arpWindows (p2 :: p3 :: p4 :: rest)
    let hit := p1 < p2 ∧ 3 ≤ p2 - p1 ∧ p3 < p2 ∧ p2 - p3 ≤ 2 ∧ p4 < p3 ∧ p3 - p4 ≤ 2
    ((if hit then w.1 + 1 else w.1), w.2 + 1)
  | _ => (0, 0)

/-- `_arpeggio_scale_mix`. -/
def arpeggio_scale_mix (g : MelodyGenome) : ℚ :=
  let pitches := soundedPitches g
  if pitches.length < 4 then 1/2
  else
    let ivs := intervalsOf pitches
    let step_count := ivs.countP (fun i => decide (i ≤ 2))
    let skip_count := ivs.countP (fun i => decide (3 ≤ i))
    let w := arpWindows pitches
    let total_movements := step_count + skip_count
    if total_movements = 0 then 1/2
    else
      let sq : ℚ := (step_count : ℚ) / (total_movements : ℚ)
      let ratio_score := max 0 (1 - |3/5 - sq| * 2)
      let pattern_score := min 1 ((w.1 : ℚ) / ((max (w.2 / 4) 1 : Nat) : ℚ))
      3/5 * ratio_score + 2/5 * pattern_score

/-- The direction-change loop of `_phrase_contour`. -/
def directionChanges : List Int → Nat
  | a :: b :: c :: rest =>
    let n := directionChanges (b :: c :: rest)
    if (0 < b - a ∧ c - b < 0) ∨ (b - a < 0 ∧ 0 < c - b) then n + 1 else n
  | _ => 0

/-- `_phrase_contour`. -/
def phrase_contour (g : MelodyGenome) : ℚ :=
  let scores := (List.range 4).map (fun phraseIdx =>
    let pts := ((g.get_bar (phraseIdx * 2)) ++ (g.get_bar (phraseIdx * 2 + 1))).filter
      (fun p => p != REST)
    if pts.length < 3 then (1/2 : ℚ)
    else
      let dc := directionChanges pts
      let maxChanges := pts.length - 2
      if maxChanges > 0 then
        let cq : ℚ := (dc : ℚ) / (maxChanges : ℚ)
        if cq ≤ 3/10 then 4/5 + cq * (67/100)
        else if cq ≤ 1/2 then 1 - (cq - 3/10) * 2
        else max 0 (3/5 - (cq - 1/2))
      else 1/2)
  if scores.length > 0 then scores.foldl (· + ·) 0 / (scores.length : ℚ) else 1/2

/-- `_note_density`. -/
def note_density (g : MelodyGenome) : ℚ :=
  let note_count := g.pitches.countP (fun p => p != REST)
  let density : ℚ := (note_count : ℚ) / (TOTAL_NOTES : ℚ)
  if density < 3/10 then density / (3/10) * (1/2)
  else if density ≤ 1/2 then 1/2 + (density - 3/10) / (1/5) * (1/2)
  else if density ≤ 3/4 then 1
  else max (3/10) (1 - (density - 3/4) * 3)

/-- `_range_fitness`. -/
def range_fitness (g : MelodyGenome) : ℚ :=
  match soundedPitches g with
  | [] => 0
  | p :: ps =>
    let mn := ps.foldl min p
    let mx := ps.foldl max p
    let range_size : ℚ := ((mx - mn : Int) : ℚ)
    if range_size < 8 then 1/2 + range_size / 16
    else if range_size ≤ 18 then 1
    else max (3/10) (1 - (range_size - 18) / 24)

/-- The heuristic methods `_<key>` reachable by `evaluate`'s
`getattr(self, f"_{func}")` dispatch, keyed by weight name. -/
def heuristicTable : List (String × (List JazzChord → MelodyGenome → ℚ)) :=
  [("chord_tone_emphasis", chord_tone_emphasis),
   ("tension_usage", tension_usage),
   ("avoid_wrong_notes", avoid_wrong_notes),
   ("call_and_response", fun _ g => call_and_response g),
   ("melodic_motion", fun _ g => melodic_motion g),
   ("arpeggio_scale_mix", fun _ g => arpeggio_scale_mix g),
   ("phrase_contour", fun _ g => phrase_contour g),
   ("note_density", fun _ g => note_density g),
   ("range_fitness", fun _ g => range_fitness g)]

def getHeuristic (k : String) : Option (List JazzChord → MelodyGenome → ℚ) :=
  List.lookup k heuristicTable

/-- `FITNESS_WEIGHTS_CONFIG` keys and default weights, in config order. -/
def FITNESS_WEIGHTS_CONFIG : List (String × ℚ) :=
  [("chord_tone_emphasis", 3/20),
   ("tension_usage", 3/20),
   ("avoid_wrong_notes", 3/20),
   ("call_and_response", 3/20),
   ("melodic_motion", 1/10),
   ("arpeggio_scale_mix", 1/20),
   ("phrase_contour", 1/10),
   ("note_density", 1/10),
   ("range_fitness", 1/20)]

/-- `get_default_weights()`. -/
def get_default_weights : List (String × ℚ) := FITNESS_WEIGHTS_CONFIG

/-- `JazzFitnessEvaluator.__init__` weight handling:
`self.weights = weights or get_default_weights()` — `None` and the
empty mapping are falsy, any non-empty mapping is kept as-is. -/
def initWeights : Option (List (String × ℚ)) → List (String × ℚ)
  | none => get_default_weights
  | some w => if w.isEmpty then get_default_weights else w

/-- `JazzFitnessEvaluator.evaluate`: iterates the stored weight mapping
in order; a key whose `_<key>` attribute does not exist raises
(modelled as `.error`), exactly as `getattr` does. -/
def evaluate (prog : List JazzChord) : List (String × ℚ) → MelodyGenome → Except String ℚ
  | [], _ => .ok 0
  | kv :: rest, g =>
    match getHeuristic kv.1 with
    | some h =>
      match evaluate prog rest g with
      | .ok s => .ok (kv.2 * h prog g + s)
      | .error e => .error e
    | none => .error ("JazzFitnessEvaluator object has no attribute _" ++ kv.1)

/-- Total version of `evaluate` for weight mappings whose keys all have
heuristics (the only case in which the Python function returns). -/
def applyHeuristic (k : String) (prog : List JazzChord) (g : MelodyGenome) : ℚ :=
  match getHeuristic k with
  | some h => h prog g
  | none => 0

def evaluateTotal (prog : List JazzChord) : List (String × ℚ) → MelodyGenome → ℚ
  | [], _ => 0
  | kv :: rest, g => kv.2 * applyHeuristic kv.1 prog g + evaluateTotal prog rest g

-- ===================================================================
-- src/genetic/pairing.py
-- ===================================================================

/-- The random draws a pairing strategy may consume: `i`/`j` model the two
positions picked by `random.sample` (or `random.choice` on the quartile
slices for best_first_last), `p1_index` the position picked by
`random.randrange` in the similarity strategies. -/
structure PairRandom where
  i : Nat
  j : Nat
  p1_index : Nat

/-- Common type of the four strategies (`PairingStrategy` in the source,
with the consumed randomness made explicit). -/
def PairingFun : Type :=
  List MelodyGenome → PairRandom → Except String (MelodyGenome × MelodyGenome)

/-- Fallback genome used to totalise list indexing at the model's chosen
positions; out-of-range positions never arise for valid draws. -/
def defaultGenome : MelodyGenome := ⟨[]⟩

/-- `random_pairing`: `random.sample(parents, 2)` picks the elements at two
distinct positions `r.i ≠ r.j`; distinctness and range are constraints on
the draw, not checked by the code. -/
def random_pairing : PairingFun := fun parents r =>
  if parents.length < 2 then .error "Pairing requires at least two parents"
  else .ok (parents.getD r.i defaultGenome, parents.getD r.j defaultGenome)

/-- `_similarity_score`: matching positions of the zipped pitch lists. -/
def similarity_score (p1 p2 : MelodyGenome) : Nat :=
  (p1.pitches.zip p2.pitches).countP (fun q => q.1 == q.2)

/-- `_similarity_pairing`: scans candidates in order keeping the first
strictly better score (Option models `best_index is None`). -/
def similarity_pairing_core (parents : List MelodyGenome) (pick_most_similar : Bool)
    (r : PairRandom) : Except String (MelodyGenome × MelodyGenome) :=
  if parents.length < 2 then .error "Pairing requires at least two parents"
  else
    let parent1 := parents.getD r.p1_index defaultGenome
    let best := parents.enum.foldl
      (fun (acc : Option (Nat × Nat)) iv =>
        if iv.1 = r.p1_index then acc
        else
          let score := similarity_score parent1 iv.2
          match acc with
          | none => some (iv.1, score)
          | some (bi, bs) =>
            if pick_most_similar && decide (bs < score) then some (iv.1, score)
            else if !pick_most_similar && decide (score < bs) then some (iv.1, score)
            else some (bi, bs))
      none
    match best with
    | none => random_pairing parents r
    | some (bi, _) => .ok (parent1, parents.getD bi defaultGenome)

/-- `similarity_pairing`. -/
def similarity_pairing : PairingFun := fun parents r =>
  similarity_pairing_core parents true r

/-- `dissimilarity_pairing`. -/
def dissimilarity_pairing : PairingFun := fun parents r =>
  similarity_pairing_core parents false r

/-- `best_first_last_pairing`: one draw from the top quartile, one from the
bottom quartile; Python rechecks object identity (`parent1 is parent2`),
approximated here by value equality, and falls back to `random_pairing`. -/
def best_first_last_pairing : PairingFun := fun parents r =>
  if parents.length < 2 then .error "Pairing requires at least two parents"
  else
    let top_count := max 1 (parents.length / 4)
    let bottom_count := max 1 (parents.length / 4)
    let parent1 := (parents.take top_count).getD r.i defaultGenome
    let parent2 := (parents.drop (parents.length - bottom_count)).getD r.j defaultGenome
    if parent1 = parent2 then random_pairing parents r
    else .ok (parent1, parent2)

/-- `PAIRING_STRATEGIES` registry. -/
def PAIRING_STRATEGIES : List (String × PairingFun) :=
  [("random", random_pairing),
   ("similarity", similarity_pairing),
   ("dissimilarity", dissimilarity_pairing),
   ("best_first_last", best_first_last_pairing)]

/-- The `strategy` argument of `resolve_pairing_strategy`: per its type
hint, a strategy name or a callable. -/
inductive StrategyArg where
  | callable : PairingFun → StrategyArg
  | name : String → StrategyArg

/-- Python builds the message suffix as the comma-join of
sorted(PAIRING_STRATEGIES.keys()); the four registry keys in ascending
order are spelled out here. -/
def availableStrategies : String :=
  String.intercalate ", " ["best_first_last", "dissimilarity", "random", "similarity"]

/-- `str.lower()`: per-character lowercasing (agrees with Python on the
ASCII registry keys). -/
def lowerName (s : String) : String := ⟨s.data.map Char.toLower⟩

/-- `resolve_pairing_strategy`.  Python wraps the unknown name in single
quotes inside the message; the quotes are left out here. -/
def resolve_pairing_strategy : StrategyArg → Except String PairingFun
  | .callable f => .ok f
  | .name s =>
    match List.lookup (lowerName s) PAIRING_STRATEGIES with
    | some f => .ok f
    | none => .error ("Unknown pairing strategy " ++ s ++ ". Available: " ++ availableStrategies)

-- ===================================================================
-- src/genetic/generator.py
-- ===================================================================

/-- `_random_chord_tone`: `random.choice(chord.chord_tones)` is the element
at position `toneIdx`, `random.choice([60, 72])` is 72 when
`octaveHigh` and 60 otherwise. -/
def random_chord_tone (chord : JazzChord) (toneIdx : Nat) (octaveHigh : Bool) : Int :=
  let chord_tone_interval := chord.chord_tones.getD toneIdx 0
  let octave : Int := if octaveHigh then 72 else 60
  octave + chord.root + chord_tone_interval

/-- The random draws `_generate_smart_random_genome` consumes per slot. -/
structure SlotChoice where
  restRoll : ℚ
  strongRoll : ℚ
  toneIdx : Nat
  octaveHigh : Bool
  pitch : Int

/-- The values the random primitives can actually produce for one slot:
`random.random()` lies in `[0, 1)`, `random.choice` picks a position in
range, `random.randint(MIN_PITCH, MAX_PITCH)` is an in-range pitch. -/
def SlotChoice.Valid (chord : JazzChord) (c : SlotChoice) : Prop :=
  0 ≤ c.restRoll ∧ c.restRoll < 1 ∧ 0 ≤ c.strongRoll ∧ c.strongRoll < 1 ∧
  c.toneIdx < chord.chord_tones.length ∧ MIN_PITCH ≤ c.pitch ∧ c.pitch ≤ MAX_PITCH

instance (chord : JazzChord) (c : SlotChoice) : Decidable (c.Valid chord) := by
  unfold SlotChoice.Valid; infer_instance

/-- One slot of `_generate_smart_random_genome`: 30% rest; on strong beats
(positions 0 and 4) a 70% chance of a random chord tone; otherwise a
uniformly random in-range pitch. -/
def smartSlot (chord : JazzChord) (pos : Nat) (c : SlotChoice) : Int :=
  if c.restRoll < 3/10 then REST
  else if (pos == 0 || pos == 4) && decide (c.strongRoll < 7/10) then
    random_chord_tone chord c.toneIdx c.octaveHigh
  else c.pitch

/-- `_generate_smart_random_genome`: bars in order, `NOTES_PER_BAR` slots
per bar, wrapped in the `MelodyGenome` constructor. -/
def generate_smart_random_genome (prog : List JazzChord) (c : Nat → Nat → SlotChoice) :
    MelodyGenome :=
  mkMelodyGenome ((List.range NUM_BARS).bind (fun barIdx =>
    (List.range NOTES_PER_BAR).map (fun pos =>
      smartSlot (prog.getD barIdx defaultChord) pos (c barIdx pos))))

/-- `_crossover`: `cut_bar = random.randint(1, NUM_BARS - 1)`,
`cut_index = cut_bar * NOTES_PER_BAR`, child = parent1 prefix plus parent2
suffix, wrapped in the `MelodyGenome` constructor. -/
def crossover (parent1 parent2 : MelodyGenome) (cut_bar : Nat) : MelodyGenome :=
  let cut_index := cut_bar * NOTES_PER_BAR
  mkMelodyGenome (parent1.pitches.take cut_index ++ parent2.pitches.drop cut_index)

/-- The random draws `_mutate` consumes. -/
structure MutChoice where
  fireRoll : ℚ
  typeRoll : ℚ
  idx : Nat
  restRoll : ℚ
  pitch : Int
  toneIdx : Nat
  octaveHigh : Bool

/-- The values the random primitives can produce for one mutation. -/
def MutChoice.Valid (prog : List JazzChord) (m : MutChoice) : Prop :=
  0 ≤ m.fireRoll ∧ m.fireRoll < 1 ∧ 0 ≤ m.typeRoll ∧ m.typeRoll < 1 ∧
  m.idx < TOTAL_NOTES ∧ 0 ≤ m.restRoll ∧ m.restRoll < 1 ∧
  MIN_PITCH ≤ m.pitch ∧ m.pitch ≤ MAX_PITCH ∧
  m.toneIdx < (prog.getD (m.idx / NOTES_PER_BAR) defaultChord).chord_tones.length

instance (prog : List JazzChord) (m : MutChoice) : Decidable (m.Valid prog) := by
  unfold MutChoice.Valid; infer_instance

/-- `_mutate`: skips when `random.random() >= mutation_rate`; otherwise
copies the genome and overwrites exactly one randomly chosen slot
according to the mutation-type roll. -/
def mutate (mutation_rate : ℚ) (prog : List JazzChord) (m : MutChoice)
    (genome : MelodyGenome) : MelodyGenome :=
  if mutation_rate ≤ m.fireRoll then genome
  else
    let mutated := genome.copy
    if m.typeRoll < 1/2 then
      if m.restRoll < 1/5 then ⟨mutated.pitches.set m.idx REST⟩
      else ⟨mutated.pitches.set m.idx m.pitch⟩
    else if m.typeRoll < 4/5 then
      let chord := prog.getD (m.idx / NOTES_PER_BAR) defaultChord
      ⟨mutated.pitches.set m.idx (random_chord_tone chord m.toneIdx m.octaveHigh)⟩
    else
      if mutated.pitches.getD m.idx REST = REST then
        let chord := prog.getD (m.idx / NOTES_PER_BAR) defaultChord
        ⟨mutated.pitches.set m.idx (random_chord_tone chord m.toneIdx m.octaveHigh)⟩
      else ⟨mutated.pitches.set m.idx REST⟩

-- ===================================================================
-- The generational loop of GeneticJazzMelodyGenerator.generate,
-- as a step relation with the randomness existentially quantified.
-- ===================================================================

/-- `_select_parents`: `random.choices(population, weights, k=population_size)`
with all weights at least `max(0.01, ·) > 0` can return any sequence of
`population_size` members of the population. -/
def SelectParents (population_size : Nat) (pop pool : List MelodyGenome) : Prop :=
  pool.length = population_size ∧ ∀ g ∈ pool, g ∈ pop

/-- The pairs `random_pairing` can return on a given parents list: the
elements at two distinct positions (`random.sample(parents, 2)`). -/
def RandomPairingRel (parents : List MelodyGenome) (pr : MelodyGenome × MelodyGenome) : Prop :=
  ∃ i j : Fin parents.length, i ≠ j ∧ parents.get i = pr.1 ∧ parents.get j = pr.2

/-- The `while len(new_population) < population_size` breeding loop: from
the accumulated next generation `acc`, each iteration draws a parent pair
from the fitness-sorted pool via the pairing strategy, produces two
crossover children (both parent orders), mutates each, and appends both. -/
inductive BreedLoop (pairing : List MelodyGenome → MelodyGenome × MelodyGenome → Prop)
    (rate : ℚ) (prog : List JazzChord) (population_size : Nat)
    (parents : List MelodyGenome) : List MelodyGenome → List MelodyGenome → Prop where
  | done (acc : List MelodyGenome) (h : population_size ≤ acc.length) :
      BreedLoop pairing rate prog population_size parents acc acc
  | more (acc final : List MelodyGenome) (p1 p2 : MelodyGenome) (cut1 cut2 : Nat)
      (m1 m2 : MutChoice)
      (hlen : acc.length < population_size)
      (hpair : pairing parents (p1, p2))
      (hcut1 : 1 ≤ cut1 ∧ cut1 ≤ NUM_BARS - 1)
      (hcut2 : 1 ≤ cut2 ∧ cut2 ≤ NUM_BARS - 1)
      (hm1 : m1.Valid prog) (hm2 : m2.Valid prog)
      (hrec : BreedLoop pairing rate prog population_size parents
        (acc ++ [mutate rate prog m1 (crossover p1 p2 cut1),
                 mutate rate prog m2 (crossover p2 p1 cut2)]) final) :
      BreedLoop pairing rate prog population_size parents acc final

/-- One iteration of the generational loop in `generate`: sort the
population by fitness descending (any stable order — existential over the
sorted permutation), copy the top `elite_size` verbatim, build the
breeding pool by fitness-proportionate sampling, sort it descending, run
the breeding loop, and truncate to `population_size`. -/
def GenStep (fit : MelodyGenome → ℚ) (population_size elite_size : Nat)
    (pairing : List MelodyGenome → MelodyGenome × MelodyGenome → Prop)
    (rate : ℚ) (prog : List JazzChord) (pop pop' : List MelodyGenome) : Prop :=
  ∃ sorted pool poolS final : List MelodyGenome,
    List.Perm sorted pop ∧ sorted.Sorted (fun a b => fit b ≤ fit a) ∧
    SelectParents population_size pop pool ∧
    List.Perm poolS pool ∧ poolS.Sorted (fun a b => fit b ≤ fit a) ∧
    BreedLoop pairing rate prog population_size poolS
      ((sorted.take elite_size).map MelodyGenome.copy) final ∧
    pop' = final.take population_size

/-- `max(fitness over population)` (0 for the empty population). -/
def maxFitness (fit : MelodyGenome → ℚ) (pop : List MelodyGenome) : ℚ :=
  pop.foldr (fun g a => max (fit g) a) 0

-- ===================================================================
-- Concrete data used by witnesses and counterexamples.
-- ===================================================================

/-- `ChordFactory.create("C", "maj7")`. -/
def Cmaj7 : JazzChord := ⟨"Cmaj7", 0, [0, 4, 7, 11], [2, 6, 9], [5]⟩

/-- `ChordFactory.create("B", "maj7")`: root pitch class 11. -/
def Bmaj7 : JazzChord := ⟨"Bmaj7", 11, [0, 4, 7, 11], [2, 6, 9], [5]⟩

/-- Eight bars of Cmaj7. -/
def prog8C : List JazzChord := List.replicate 8 Cmaj7

/-- Eight bars of Bmaj7. -/
def prog8B : List JazzChord := List.replicate 8 Bmaj7

/-- The all-rest melody. -/
def gRest : MelodyGenome := mkMelodyGenome []

/-- The all-sounded melody on middle C. -/
def gAll : MelodyGenome := mkMelodyGenome (List.replicate TOTAL_NOTES 60)

/-- Fitness with default weights against the Cmaj7 progression. -/
def fitC : MelodyGenome → ℚ := evaluateTotal prog8C get_default_weights

/-- Default weight of a heuristic key per `FITNESS_WEIGHTS_CONFIG` (0 for
keys outside the config, which never occurs for configured keys). -/
def defaultWeightFor (k : String) : ℚ :=
  (List.lookup k FITNESS_WEIGHTS_CONFIG).getD 0

/-- Spec-side formula (for comparison against `evaluate`): the weighted sum
`Σ weight[k] · heuristic_k(melody, progression)` over ALL configured
heuristic keys, for an arbitrary per-key weight assignment. -/
def spec_weightedSum (prog : List JazzChord) (weight : String → ℚ) (g : MelodyGenome) : ℚ :=
  FITNESS_WEIGHTS_CONFIG.foldr
    (fun item acc => weight item.1 * applyHeuristic item.1 prog g + acc) 0

/-- Fraction of sounded slots of a melody. -/
def sounded_fraction (g : MelodyGenome) : ℚ :=
  ((g.pitches.countP (fun p => p != REST)) : ℚ) / (TOTAL_NOTES : ℚ)

/-- Spec-side formula (for comparison against `note_density`): the
documented piecewise-linear curve of the sounded-slot fraction —
below 0.3 scaled down, 0.3 to 0.5 ramping to 1, 0.5 to 0.75 a plateau at
1.0, above 0.75 decaying with floor 0.3. -/
def spec_note_density_curve (density : ℚ) : ℚ :=
  if density < 3/10 then density / (3/10) * (1/2)
  else if density ≤ 1/2 then 1/2 + (density - 3/10) / (1/5) * (1/2)
  else if density ≤ 3/4 then 1
  else max (3/10) (1 - (density - 3/4) * 3)

/-- A valid slot draw: no rest (roll 1/2), chord-tone branch on the strong
beat (roll 0), chord-tone position 3, upper octave. -/
def cBad : SlotChoice := ⟨1/2, 0, 3, true, 60⟩

/-- A valid mutation draw: fire roll 0, random-pitch branch (type roll 0),
slot 0, pitch roll keeps a pitch (1/2), pitch 60. -/
def mPitch60 : MutChoice := ⟨0, 0, 0, 1/2, 60, 0, false⟩

-- ===================================================================
-- Theorems
-- ===================================================================

/-- `__post_init__` keeps a non-empty pitch list unchanged. -/
theorem mkMelodyGenome_pitches_of_ne_nil (l : List Int) (h : l ≠ []) :
    (mkMelodyGenome l).pitches = l := by
  cases l with
  | nil => exact absurd rfl h
  | cons a t => rfl

/-- Copying a genome with a non-empty pitch list yields an equal genome. -/
theorem copy_eq_of_ne_nil (g : MelodyGenome) (h : g.pitches ≠ []) : g.copy = g := by
  cases g with
  | mk l =>
    cases l with
    | nil => exact absurd rfl h
    | cons a t => rfl

/-- **C1** (code bug): chord-tone snapping escapes the declared pitch
bounds.  With every bar on Bmaj7 (root 11), the upper-octave draw of the
major-seventh chord tone yields pitch 72 + 11 + 11 = 94 > MAX_PITCH, and
the initializer places it on a strong beat, so a core-produced melody
holds a slot that is neither REST nor within [MIN_PITCH, MAX_PITCH]
(the length half of the claim does hold: the genome has TOTAL_NOTES
slots). -/
theorem chord_tone_snap_out_of_bounds :
    random_chord_tone Bmaj7 3 true = 94 ∧
    MAX_PITCH < 94 ∧
    SlotChoice.Valid Bmaj7 cBad ∧
    (generate_smart_random_genome prog8B (fun _ _ => cBad)).pitches.getD 0 REST = 94 ∧
    (generate_smart_random_genome prog8B (fun _ _ => cBad)).pitches.length = TOTAL_NOTES ∧
    ¬ ((94 : Int) = REST ∨ (MIN_PITCH ≤ (94 : Int) ∧ (94 : Int) ≤ MAX_PITCH)) := by
  decide

/-- **C7**: `_note_density` maps the all-rest melody to 0 and the all-note
melody to the decaying-branch value 0.3 (not 1), and in general equals the
documented piecewise-linear curve of the sounded-slot fraction. -/
theorem note_density_matches_curve (g : MelodyGenome) :
    note_density gRest = 0 ∧
    note_density gAll = 3/10 ∧
    ¬ ((3/10 : ℚ) = 1) ∧
    note_density g = spec_note_density_curve (sounded_fraction g) :=
  ⟨by decide, by decide, by decide, rfl⟩

/-- **C9**: constructing a `MelodyGenome` from the empty list yields
`TOTAL_NOTES` rests; any non-empty list — whatever its length or values —
is stored unchanged, with no validation. -/
theorem melody_genome_post_init (l : List Int) (h : l ≠ []) :
    (mkMelodyGenome []).pitches = List.replicate TOTAL_NOTES REST ∧
    (mkMelodyGenome l).pitches = l :=
  ⟨rfl, mkMelodyGenome_pitches_of_ne_nil l h⟩

/-- Witness for `melody_genome_post_init` at a list of length 2 with an
out-of-range value. -/
theorem melody_genome_post_init_witness :
    ([99, -5] : List Int) ≠ [] ∧ (mkMelodyGenome [99, -5]).pitches = [99, -5] :=
  ⟨by decide, (melody_genome_post_init [99, -5] (by decide)).2⟩

/-- **C5**: crossover of two `TOTAL_NOTES`-slot parents concatenates
parent1's prefix with parent2's suffix at `cut_index = cut_bar *
NOTES_PER_BAR`, where the cut bar ranges over 1..NUM_BARS−1; the cut index
is a nonzero multiple of NOTES_PER_BAR below TOTAL_NOTES, and the child
has `TOTAL_NOTES` slots again. -/
theorem crossover_cuts_at_bar_boundary (p1 p2 : MelodyGenome) (cut_bar : Nat)
    (h1 : 1 ≤ cut_bar) (h2 : cut_bar ≤ NUM_BARS - 1)
    (hp1 : p1.pitches.length = TOTAL_NOTES) (hp2 : p2.pitches.length = TOTAL_NOTES) :
    (crossover p1 p2 cut_bar).pitches
      = p1.pitches.take (cut_bar * NOTES_PER_BAR) ++ p2.pitches.drop (cut_bar * NOTES_PER_BAR) ∧
    cut_bar * NOTES_PER_BAR % NOTES_PER_BAR = 0 ∧
    cut_bar * NOTES_PER_BAR ≠ 0 ∧
    cut_bar * NOTES_PER_BAR < TOTAL_NOTES ∧
    (crossover p1 p2 cut_bar).pitches.length = TOTAL_NOTES := by
  have hbars : NOTES_PER_BAR = 8 ∧ NUM_BARS = 8 ∧ TOTAL_NOTES = 64 := ⟨rfl, rfl, rfl⟩
  obtain ⟨hb, hn, ht⟩ := hbars
  rw [hn] at h2
  have hlen : (p1.pitches.take (cut_bar * NOTES_PER_BAR)
      ++ p2.pitches.drop (cut_bar * NOTES_PER_BAR)).length = TOTAL_NOTES := by
    rw [List.length_append, List.length_take, List.length_drop, hp1, hp2, hb, ht]
    omega
  have hne : p1.pitches.take (cut_bar * NOTES_PER_BAR)
      ++ p2.pitches.drop (cut_bar * NOTES_PER_BAR) ≠ [] := by
    intro hc
    rw [hc] at hlen
    simp [ht] at hlen
  have hpe := mkMelodyGenome_pitches_of_ne_nil _ hne
  refine ⟨hpe, Nat.mul_mod_left _ _, ?_, ?_, ?_⟩
  · rw [hb]; omega
  · rw [hb, ht]; omega
  · rw [show (crossover p1 p2 cut_bar).pitches
        = p1.pitches.take (cut_bar * NOTES_PER_BAR)
          ++ p2.pitches.drop (cut_bar * NOTES_PER_BAR) from hpe]
    exact hlen

/-- Witness for `crossover_cuts_at_bar_boundary` at cut bar 1 on the two
concrete 64-slot melodies. -/
theorem crossover_cuts_at_bar_boundary_witness :
    1 ≤ NUM_BARS - 1 ∧ (crossover gAll gRest 1).pitches.length = TOTAL_NOTES :=
  ⟨by decide,
   (crossover_cuts_at_bar_boundary gAll gRest 1 (le_refl 1) (by decide)
     (by decide) (by decide)).2.2.2.2⟩

/-- **C10**: if the weight mapping holds a key with no heuristic method
`_<key>`, `evaluate` raises (attribute lookup failure) instead of
skipping the key. -/
theorem evaluate_unknown_key_errors (prog : List JazzChord) (w : List (String × ℚ))
    (g : MelodyGenome) (h : ∃ p ∈ w, getHeuristic p.1 = none) :
    ∃ msg, evaluate prog w g = .error msg := by
  induction w with
  | nil => simp at h
  | cons q t ih =>
    rcases h with ⟨p, hp, hnone⟩
    rcases List.mem_cons.mp hp with rfl | hmem
    · exact ⟨"JazzFitnessEvaluator object has no attribute _" ++ p.1,
        by simp [evaluate, hnone]⟩
    · cases hq : getHeuristic q.1 with
      | none => exact ⟨"JazzFitnessEvaluator object has no attribute _" ++ q.1,
          by simp [evaluate, hq]⟩
      | some hfun =>
        obtain ⟨msg, hmsg⟩ := ih ⟨p, hmem, hnone⟩
        exact ⟨msg, by simp [evaluate, hq, hmsg]⟩

/-- Witness for `evaluate_unknown_key_errors` at the unknown key "bogus". -/
theorem evaluate_unknown_key_errors_witness :
    ∃ msg, evaluate prog8C [("bogus", (1 : ℚ))] gRest = .error msg :=
  evaluate_unknown_key_errors prog8C [("bogus", 1)] gRest ⟨("bogus", 1), by simp, rfl⟩

/-- **C8**: `resolve_pairing_strategy` returns a supplied callable
unchanged, resolves names case-insensitively (via `toLower`) against the
four-entry registry, and rejects unknown names with an error naming the
available options. -/
theorem resolve_strategy_spec :
    (∀ f, resolve_pairing_strategy (.callable f) = .ok f) ∧
    (∀ s g, List.lookup (lowerName s) PAIRING_STRATEGIES = some g →
      resolve_pairing_strategy (.name s) = .ok g) ∧
    (∀ s, List.lookup (lowerName s) PAIRING_STRATEGIES = none →
      resolve_pairing_strategy (.name s)
        = .error ("Unknown pairing strategy " ++ s ++ ". Available: " ++ availableStrategies)) := by
  refine ⟨fun f => rfl, fun s g h => ?_, fun s h => ?_⟩
  · simp [resolve_pairing_strategy, h]
  · simp [resolve_pairing_strategy, h]

/-- Witness for `resolve_strategy_spec`: the upper-case name "RANDOM"
resolves to `random_pairing`; the unknown name "foo" is rejected with the
options list. -/
theorem resolve_strategy_spec_witness :
    resolve_pairing_strategy (.name "RANDOM") = .ok random_pairing ∧
    resolve_pairing_strategy (.name "foo")
      = .error ("Unknown pairing strategy " ++ "foo" ++ ". Available: " ++ availableStrategies) :=
  ⟨resolve_strategy_spec.2.1 "RANDOM" random_pairing rfl,
   resolve_strategy_spec.2.2 "foo" rfl⟩

/-- On a weight mapping whose keys all have heuristics, `evaluate`
returns the weighted sum over exactly those keys. -/
theorem evaluate_eq_total (prog : List JazzChord) (w : List (String × ℚ)) (g : MelodyGenome)
    (hw : ∀ p ∈ w, (getHeuristic p.1).isSome = true) :
    evaluate prog w g = .ok (evaluateTotal prog w g) := by
  induction w with
  | nil => rfl
  | cons q t ih =>
    have hq := hw q (List.mem_cons_self q t)
    cases hgq : getHeuristic q.1 with
    | none => rw [hgq] at hq; simp at hq
    | some hf =>
      have ht := ih (fun p hp => hw p (List.mem_cons_of_mem q hp))
      simp [evaluate, evaluateTotal, applyHeuristic, hgq, ht]

/-- **C3** (amended): `evaluate` returns the weighted sum over the keys of
its stored weight mapping; the documented defaults apply only when no
mapping (or an empty one) is supplied — then the sum ranges over all
configured keys with their default weights; a non-empty partial mapping
is used as-is, so its omitted keys contribute nothing. -/
theorem evaluate_weighted_sum (prog : List JazzChord) (g : MelodyGenome)
    (w : List (String × ℚ)) (hw : ∀ p ∈ w, (getHeuristic p.1).isSome = true) (hne : w ≠ []) :
    evaluate prog (initWeights (some w)) g = .ok (evaluateTotal prog w g) ∧
    initWeights none = get_default_weights ∧
    evaluate prog (initWeights none) g = .ok (spec_weightedSum prog defaultWeightFor g) := by
  have hw' : initWeights (some w) = w := by
    cases w with
    | nil => exact absurd rfl hne
    | cons a t => rfl
  refine ⟨?_, rfl, ?_⟩
  · rw [hw']; exact evaluate_eq_total prog w g hw
  have hd : evaluate prog get_default_weights g = .ok (evaluateTotal prog get_default_weights g) :=
    evaluate_eq_total prog _ g (by decide)
  have hspec : evaluateTotal prog get_default_weights g = spec_weightedSum prog defaultWeightFor g := rfl
  rw [show initWeights none = get_default_weights from rfl, hd, hspec]

/-- Witness for `evaluate_weighted_sum` at the one-key mapping. -/
theorem evaluate_weighted_sum_witness :
    evaluate prog8C (initWeights (some [("note_density", (1 : ℚ))])) gRest
      = .ok (evaluateTotal prog8C [("note_density", 1)] gRest) :=
  (evaluate_weighted_sum prog8C gRest [("note_density", 1)] (by decide) (by simp)).1

/-- Counterexample for **C3** as stated: with the partial mapping
weighting only note_density, `evaluate` returns 0 on the all-rest melody,
while the claimed sum over all configured keys (defaults for the
unspecified ones) is 11/40 — omitted keys do NOT contribute their
defaults. -/
theorem evaluate_partial_weights_cex :
    evaluate prog8C (initWeights (some [("note_density", (1 : ℚ))])) gRest = .ok 0 ∧
    spec_weightedSum prog8C
      (fun k => if k = "note_density" then 1 else defaultWeightFor k) gRest = 11/40 ∧
    ¬ ((0 : ℚ) = 11/40) := by
  refine ⟨rfl, by decide, by decide⟩

/-- **C6** (amended): a mutation draw at rate 0 always skips (the child is
bit-identical to its crossover result); at rate 1 it always fires and
overwrites exactly one randomly chosen slot — so the child differs from
its pre-mutation result in AT MOST one slot (the overwriting value can
coincide with the old one), all other slots and the length unchanged. -/
theorem mutation_amended (prog : List JazzChord) (m : MutChoice) (g : MelodyGenome)
    (hm : m.Valid prog) (hg : g.pitches ≠ []) :
    mutate 0 prog m g = g ∧
    (∃ v, mutate 1 prog m g = ⟨g.pitches.set m.idx v⟩) ∧
    (∀ j, j ≠ m.idx → (mutate 1 prog m g).pitches.getD j REST = g.pitches.getD j REST) ∧
    (mutate 1 prog m g).pitches.length = g.pitches.length := by
  obtain ⟨h0, h1, -⟩ := hm
  have hcopy : g.copy = g := copy_eq_of_ne_nil g hg
  have hskip : mutate 0 prog m g = g := by
    unfold mutate
    rw [if_pos h0]
  have hfire : ¬ ((1 : ℚ) ≤ m.fireRoll) := not_le.mpr h1
  have hform : ∃ v, mutate 1 prog m g = ⟨g.pitches.set m.idx v⟩ := by
    unfold mutate
    rw [if_neg hfire, hcopy]
    by_cases ht1 : m.typeRoll < 1/2
    · rw [if_pos ht1]
      by_cases ht2 : m.restRoll < 1/5
      · rw [if_pos ht2]; exact ⟨_, rfl⟩
      · rw [if_neg ht2]; exact ⟨_, rfl⟩
    · rw [if_neg ht1]
      by_cases ht3 : m.typeRoll < 4/5
      · rw [if_pos ht3]; exact ⟨_, rfl⟩
      · rw [if_neg ht3]
        by_cases ht4 : g.pitches.getD m.idx REST = REST
        · rw [if_pos ht4]; exact ⟨_, rfl⟩
        · rw [if_neg ht4]; exact ⟨_, rfl⟩
  obtain ⟨v, hv⟩ := hform
  refine ⟨hskip, ⟨v, hv⟩, ?_, ?_⟩
  · intro j hj
    rw [hv]
    show ((g.pitches.set m.idx v).get? j).getD REST = (g.pitches.get? j).getD REST
    rw [List.get?_set_ne v g.pitches (fun he => hj he.symm)]
  · rw [hv]
    exact List.length_set g.pitches m.idx v

/-- Witness for `mutation_amended` at a concrete valid draw on the
all-note melody. -/
theorem mutation_amended_witness :
    mutate 0 prog8C mPitch60 gAll = gAll ∧
    (mutate 1 prog8C mPitch60 gAll).pitches.length = gAll.pitches.length :=
  ⟨(mutation_amended prog8C mPitch60 gAll (by decide) (by decide)).1,
   (mutation_amended prog8C mPitch60 gAll (by decide) (by decide)).2.2.2⟩

/-- Counterexample for **C6** as stated: a valid rate-1 draw (so mutation
fires) whose random replacement pitch equals the slot's old pitch — the
mutated child differs from its pre-mutation result in ZERO slots, not
exactly one. -/
theorem mutation_one_slot_cex :
    MutChoice.Valid prog8C mPitch60 ∧ mPitch60.fireRoll < 1 ∧
    (mutate 1 prog8C mPitch60 gAll).pitches = gAll.pitches ∧
    ((gAll.pitches.zip (mutate 1 prog8C mPitch60 gAll).pitches).countP
      (fun q => !(q.1 == q.2))) = 0 := by
  refine ⟨by decide, by decide, by decide, by decide⟩

/-- Every member's fitness is at most the population maximum. -/
theorem maxFitness_le_of_mem (fit : MelodyGenome → ℚ) (pop : List MelodyGenome)
    (g : MelodyGenome) (hg : g ∈ pop) : fit g ≤ maxFitness fit pop := by
  induction pop with
  | nil => simp at hg
  | cons a t ih =>
    rcases List.mem_cons.mp hg with rfl | hmem
    · exact le_max_left _ _
    · exact le_trans (ih hmem) (le_max_right _ _)

theorem maxFitness_nonneg (fit : MelodyGenome → ℚ) (pop : List MelodyGenome) :
    0 ≤ maxFitness fit pop := by
  induction pop with
  | nil => exact le_refl 0
  | cons a t ih => exact le_trans ih (le_max_right _ _)

theorem maxFitness_le_max (fit : MelodyGenome → ℚ) (pop : List MelodyGenome) (b : ℚ)
    (hb : ∀ g ∈ pop, fit g ≤ b) : maxFitness fit pop ≤ max b 0 := by
  induction pop with
  | nil => exact le_max_right _ _
  | cons a t ih =>
    refine max_le ?_ (ih (fun g hg => hb g (List.mem_cons_of_mem a hg)))
    exact le_trans (hb a (List.mem_cons_self a t)) (le_max_left _ _)

/-- A breeding loop run either needed no iteration (the elites already
fill the next generation) or invoked the pairing strategy. -/
theorem breedLoop_runs_or_pairs {pairing : List MelodyGenome → MelodyGenome × MelodyGenome → Prop}
    {rate : ℚ} {prog : List JazzChord} {ps : Nat} {parents acc final : List MelodyGenome}
    (h : BreedLoop pairing rate prog ps parents acc final) :
    ps ≤ acc.length ∨ ∃ pr, pairing parents pr := by
  induction h with
  | done acc h => exact Or.inl h
  | more acc final p1 p2 cut1 cut2 m1 m2 hlen hpair hcut1 hcut2 hm1 hm2 hrec ih =>
    exact Or.inr ⟨(p1, p2), hpair⟩

/-- The breeding loop only appends to the accumulated next generation. -/
theorem breedLoop_extends {pairing : List MelodyGenome → MelodyGenome × MelodyGenome → Prop}
    {rate : ℚ} {prog : List JazzChord} {ps : Nat} {parents acc final : List MelodyGenome}
    (h : BreedLoop pairing rate prog ps parents acc final) : ∃ t, final = acc ++ t := by
  induction h with
  | done acc _ => exact ⟨[], (List.append_nil acc).symm⟩
  | more acc final p1 p2 cut1 cut2 m1 m2 hlen hpair hcut1 hcut2 hm1 hm2 hrec ih =>
    obtain ⟨t, ht⟩ := ih
    exact ⟨[mutate rate prog m1 (crossover p1 p2 cut1),
            mutate rate prog m2 (crossover p2 p1 cut2)] ++ t,
      by rw [ht, List.append_assoc]⟩

/-- **C2** (amended): in every generational step with at least one elite
slot (`elite_size ≥ 1`) over a population of well-formed genomes, the
maximum fitness does not decrease — the fittest individual is copied
verbatim to the head of the next generation and survives truncation.
(With `elite_size = 0` the maximum can decrease; see the
counterexample.) -/
theorem elitism_monotone (prog : List JazzChord) (weights : List (String × ℚ))
    (ps es : Nat) (pairing : List MelodyGenome → MelodyGenome × MelodyGenome → Prop)
    (rate : ℚ) (pop pop' : List MelodyGenome)
    (hes : 1 ≤ es) (hps : 1 ≤ ps)
    (hwf : ∀ g ∈ pop, g.pitches ≠ [])
    (hstep : GenStep (evaluateTotal prog weights) ps es pairing rate prog pop pop') :
    maxFitness (evaluateTotal prog weights) pop
      ≤ maxFitness (evaluateTotal prog weights) pop' := by
  obtain ⟨sorted, pool, poolS, final, hperm, hsort, ⟨hplen, hpmem⟩, -, -, hloop, hpop'⟩ := hstep
  cases sorted with
  | nil =>
    have hpopnil : pop = [] := List.Perm.eq_nil hperm.symm
    have hpoolnil : pool = [] := by
      refine List.eq_nil_iff_forall_not_mem.mpr (fun g hg => ?_)
      have := hpmem g hg
      rw [hpopnil] at this
      simp at this
    rw [hpoolnil] at hplen
    simp at hplen
    omega
  | cons b t =>
    have hb_pop : b ∈ pop := hperm.mem_iff.mp (List.mem_cons_self b t)
    have hb_max : ∀ g ∈ pop, evaluateTotal prog weights g ≤ evaluateTotal prog weights b := by
      intro g hg
      rcases List.mem_cons.mp (hperm.mem_iff.mpr hg) with rfl | hmem
      · exact le_refl _
      · exact List.rel_of_sorted_cons hsort g hmem
    obtain ⟨es', rfl⟩ : ∃ k, es = k + 1 := ⟨es - 1, by omega⟩
    rw [List.take_succ_cons, List.map_cons] at hloop
    obtain ⟨tail1, hfinal⟩ := breedLoop_extends hloop
    obtain ⟨ps', rfl⟩ : ∃ k, ps = k + 1 := ⟨ps - 1, by omega⟩
    have hcopyb : MelodyGenome.copy b = b := copy_eq_of_ne_nil b (hwf b hb_pop)
    have hb_pop' : b ∈ pop' := by
      rw [hpop', hfinal, List.cons_append, List.take_succ_cons, hcopyb]
      exact List.mem_cons_self _ _
    calc maxFitness (evaluateTotal prog weights) pop
        ≤ max (evaluateTotal prog weights b) 0 := maxFitness_le_max _ _ _ hb_max
      _ ≤ maxFitness (evaluateTotal prog weights) pop' :=
          max_le (maxFitness_le_of_mem _ _ _ hb_pop') (maxFitness_nonneg _ _)

/-- Witness for `elitism_monotone`: a concrete one-individual step with
`population_size = elite_size = 1`, where the loop never runs. -/
theorem elitism_monotone_witness :
    maxFitness (evaluateTotal prog8C get_default_weights) [gRest]
      ≤ maxFitness (evaluateTotal prog8C get_default_weights) [gRest] :=
  elitism_monotone prog8C get_default_weights 1 1 RandomPairingRel 0 [gRest] [gRest]
    (le_refl 1) (le_refl 1) (by decide)
    ⟨[gRest], [gRest], [gRest], [MelodyGenome.copy gRest],
     List.Perm.refl _, List.sorted_singleton _, ⟨rfl, by simp⟩,
     List.Perm.refl _, List.sorted_singleton _,
     BreedLoop.done _ (by decide), by decide⟩

/-- Counterexample for **C2** as stated (`elite_size` may be 0): a
complete generational run with `population_size = 2`, `elite_size = 0`,
mutation rate 0 and the default random pairing, starting from the
population [all-C4, all-rest]: the breeding pool draw picks the all-rest
genome twice, both crossover children equal it, and the next generation's
maximum fitness drops from 541/1000 to 11/40. -/
theorem elitism_monotonicity_cex :
    GenStep (evaluateTotal prog8C get_default_weights) 2 0 RandomPairingRel 0 prog8C
      [gAll, gRest] [gRest, gRest] ∧
    maxFitness (evaluateTotal prog8C get_default_weights) [gRest, gRest]
      < maxFitness (evaluateTotal prog8C get_default_weights) [gAll, gRest] := by
  constructor
  · refine ⟨[gAll, gRest], [gRest, gRest], [gRest, gRest],
      [] ++ [mutate 0 prog8C mPitch60 (crossover gRest gRest 1),
             mutate 0 prog8C mPitch60 (crossover gRest gRest 1)],
      List.Perm.refl _, ?_, ⟨rfl, by simp⟩, List.Perm.refl _, ?_, ?_, by decide⟩
    · refine List.sorted_cons.mpr ⟨?_, List.sorted_singleton _⟩
      intro c hc
      simp only [List.mem_singleton] at hc
      subst hc
      decide
    · refine List.sorted_cons.mpr ⟨?_, List.sorted_singleton _⟩
      intro c hc
      simp only [List.mem_singleton] at hc
      subst hc
      exact le_refl _
    · refine BreedLoop.more _ _ gRest gRest 1 1 mPitch60 mPitch60 (by decide) ?_
        (by decide) (by decide) (by decide) (by decide) ?_
      · exact ⟨⟨0, by decide⟩, ⟨1, by decide⟩, by decide, rfl, rfl⟩
      · exact BreedLoop.done _ (by decide)
  · decide

/-- **C4** (amended): each of the four pairing strategies fails with the
explicit underflow error on fewer than two parents; the breeding pool the
engine passes to the strategy always has exactly `population_size`
members, so with `population_size ≥ 2` the pool never underflows.  (With
`population_size = 1` and `elite_size = 0` the engine does invoke the
strategy on a single-parent pool; see the counterexample.) -/
theorem pairing_underflow_errors (parents : List MelodyGenome) (r : PairRandom)
    (hlt : parents.length < 2) (ps : Nat) (pop pool poolS : List MelodyGenome)
    (hps : 2 ≤ ps) (hsel : SelectParents ps pop pool) (hperm : List.Perm poolS pool) :
    random_pairing parents r = .error "Pairing requires at least two parents" ∧
    similarity_pairing parents r = .error "Pairing requires at least two parents" ∧
    dissimilarity_pairing parents r = .error "Pairing requires at least two parents" ∧
    best_first_last_pairing parents r = .error "Pairing requires at least two parents" ∧
    2 ≤ poolS.length := by
  refine ⟨?_, ?_, ?_, ?_, ?_⟩
  · simp [random_pairing, hlt]
  · simp [similarity_pairing, similarity_pairing_core, hlt]
  · simp [dissimilarity_pairing, similarity_pairing_core, hlt]
  · simp [best_first_last_pairing, hlt]
  · rw [hperm.length_eq, hsel.1]
    exact hps

/-- Witness for `pairing_underflow_errors`: a singleton parents list and a
size-2 breeding pool drawn from a one-individual population. -/
theorem pairing_underflow_errors_witness :
    random_pairing [gRest] ⟨0, 1, 0⟩ = .error "Pairing requires at least two parents" ∧
    best_first_last_pairing [gRest] ⟨0, 1, 0⟩ = .error "Pairing requires at least two parents" :=
  ⟨(pairing_underflow_errors [gRest] ⟨0, 1, 0⟩ (by decide) 2 [gRest] [gRest, gRest]
      [gRest, gRest] (by decide) ⟨rfl, by simp⟩ (List.Perm.refl _)).1,
   (pairing_underflow_errors [gRest] ⟨0, 1, 0⟩ (by decide) 2 [gRest] [gRest, gRest]
      [gRest, gRest] (by decide) ⟨rfl, by simp⟩ (List.Perm.refl _)).2.2.2.1⟩

/-- Counterexample for **C4** as stated: `population_size = 1` with
`elite_size = 0` is a valid configuration (`population_size > 0`), the
breeding pool `random.choices` returns has exactly one member, the elite
copies (none) leave the next generation short, so the engine enters the
breeding loop and invokes the pairing strategy on a one-element pool —
which raises, and indeed no completed breeding loop exists from this
state. -/
theorem pairing_pool_underflow_cex :
    0 < 1 ∧
    SelectParents 1 [gRest] [gRest] ∧
    ((([gRest] : List MelodyGenome).take 0).map MelodyGenome.copy).length < 1 ∧
    random_pairing [gRest] ⟨0, 1, 0⟩ = .error "Pairing requires at least two parents" ∧
    ¬ (∃ final, BreedLoop RandomPairingRel 0 prog8C 1 [gRest]
        ((([gRest] : List MelodyGenome).take 0).map MelodyGenome.copy) final) := by
  refine ⟨Nat.zero_lt_one, ⟨rfl, by simp⟩, by decide, rfl, ?_⟩
  rintro ⟨final, hloop⟩
  rcases breedLoop_runs_or_pairs hloop with hle | ⟨pr, hpair⟩
  · simp at hle
  · obtain ⟨i, j, hne, -, -⟩ := hpair
    apply hne
    apply Fin.ext
    have hi := i.2
    have hj := j.2
    have hlen1 : ([gRest] : List MelodyGenome).length = 1 := rfl
    omega
